import Mathlib

/-!
Verification of the BNSF rail-data core of this repository:
certificate conversion (`BNSFAPIClient._convert_pfx_to_pem`), the
rate-limited requester (`BNSFAPIClient._make_request`, `fetch_waybill`),
the equipment-pair extractor (`BNSFDataFetcher._extract_equipment_pairs`)
and the background job runner (`run_job` in `bnsf_views.py`), shallowly
embedded as executable Lean functions.
-/

set_option maxHeartbeats 1000000

namespace BNSF

/-- Shallow model of a Python/JSON value as it flows through the fetcher:
`None`, booleans, integers, strings, lists and dicts (a dict is its
insertion-ordered entry list; keys are assumed distinct as in a real dict). -/
inductive JValue where
  | null
  | bool (b : Bool)
  | num (n : Int)
  | str (s : String)
  | arr (items : List JValue)
  | obj (fields : List (String × JValue))

/-- Python truthiness of a value (`if init and num:`): `None`, `False`, `0`,
`""`, `[]` and `{}` are falsy, everything else truthy. -/
def JValue.truthy : JValue → Bool
  | .null => false
  | .bool b => b
  | .num n => n != 0
  | .str s => s != ""
  | .arr items => !items.isEmpty
  | .obj fields => !fields.isEmpty

/-- Comma-space separator used by Python container printing. -/
def commaSep (parts : List String) : String := String.intercalate ", " parts

mutual

/-- Python `str()` of a value, as used by `str(init)` and by the f-string
`f"{init}:{num}"` in `_extract_equipment_pairs`. -/
def pyStr : JValue → String
  | .null => "None"
  | .bool true => "True"
  | .bool false => "False"
  | .num n => toString n
  | .str s => s
  | .arr items => "[" ++ commaSep (pyReprList items) ++ "]"
  | .obj fields => "\x7b" ++ commaSep (pyReprFields fields) ++ "\x7d"

/-- Python `repr()` of a value, used for elements inside containers. -/
def pyRepr : JValue → String
  | .null => "None"
  | .bool true => "True"
  | .bool false => "False"
  | .num n => toString n
  | .str s => "\x27" ++ s ++ "\x27"
  | .arr items => "[" ++ commaSep (pyReprList items) ++ "]"
  | .obj fields => "\x7b" ++ commaSep (pyReprFields fields) ++ "\x7d"
termination_by structural v => v

/-- Reprs of the elements of a list value. -/
def pyReprList : List JValue → List String
  | [] => []
  | v :: rest => pyRepr v :: pyReprList rest
termination_by structural l => l

/-- Reprs of the entries of a dict value. -/
def pyReprFields : List (String × JValue) → List String
  | [] => []
  | kv :: rest => ("\x27" ++ kv.1 ++ "\x27: " ++ pyRepr kv.2) :: pyReprFields rest
termination_by structural l => l

end

/-- Python `obj.get(key)`: value of the key if present, else `None`. -/
def objGet (fields : List (String × JValue)) (k : String) : JValue :=
  match fields.find? (fun kv => kv.1 == k) with
  | some kv => kv.2
  | none => .null

/-- Python `str.strip()`: remove leading and trailing whitespace. -/
def pyStrip (s : String) : String :=
  String.mk (((s.data.dropWhile Char.isWhitespace).reverse.dropWhile
    Char.isWhitespace).reverse)

/-- Python `str.lower()` (over the ASCII range relevant to field names). -/
def pyLower (s : String) : String := String.mk (s.data.map Char.toLower)

/-- Whether `needle` starts `hay` (character lists). -/
def startsL : List Char → List Char → Bool
  | [], _ => true
  | _ :: _, [] => false
  | c :: cs, h :: hs => c == h && startsL cs hs

/-- Whether `needle` occurs inside `hay` (character lists). -/
def subL (needle : List Char) : List Char → Bool
  | [] => startsL needle []
  | h :: hs => startsL needle (h :: hs) || subL needle hs

/-- Python substring test `needle in hay`. -/
def containsSub (hay needle : String) : Bool := subL needle.data hay.data

/-- Python dict assignment `m[k] = v`: overwrites the value of an existing key
(keeping its position) or appends a fresh key at the end. -/
def dictInsert (m : List (String × JValue)) (k : String) (v : JValue) :
    List (String × JValue) :=
  if m.any (fun kv => kv.1 == k) then
    m.map (fun kv => if kv.1 == k then (kv.1, v) else kv)
  else m ++ [(k, v)]

/-- The dict comprehension
`{str(k).lower(): v for k, v in obj.items()}` of the heuristic fallback. -/
def lowerMap (fields : List (String × JValue)) : List (String × JValue) :=
  fields.foldl (fun m kv => dictInsert m (pyLower kv.1) kv.2) []

/-- One extracted identifier pair, as appended by
`pairs.append({'equipment_initial': ..., 'equipment_number': ...})`. -/
structure EquipmentPair where
  equipment_initial : String
  equipment_number : String
deriving DecidableEq, Repr

/-- Mutable state of `_extract_equipment_pairs`: the accumulated `pairs`
list and the `seen` dedup set (modelled as the list of keys added). -/
structure ExtractState where
  pairs : List EquipmentPair
  seen : List String
deriving DecidableEq, Repr

/-- The shared append step of `_extract_equipment_pairs` (lines 502-506 and
515-519 are textually identical): if both values are truthy, build the raw
key `f"{init}:{num}"`, and if unseen, record the stripped string pair. -/
def addCandidate (st : ExtractState) (init num : JValue) : ExtractState :=
  if init.truthy && num.truthy then
    if pyStr init ++ ":" ++ pyStr num ∈ st.seen then st
    else { pairs := st.pairs ++
             [{ equipment_initial := pyStrip (pyStr init),
                equipment_number := pyStrip (pyStr num) }],
           seen := st.seen ++ [pyStr init ++ ":" ++ pyStr num] }
  else st

/-- The prioritized alias-candidate list of `try_extract`. -/
def aliasCandidates (fields : List (String × JValue)) : List (JValue × JValue) :=
  [ (objGet fields "eqInit", objGet fields "eqNbr"),
    (objGet fields "equipmentInitial", objGet fields "equipmentNumber"),
    (objGet fields "initial", objGet fields "number"),
    (objGet fields "carInitial", objGet fields "carNumber") ]

/-- Key test of the heuristic fallback for the "initial"-like key. -/
def looksLikeInit (k : String) : Bool :=
  containsSub k "init" || containsSub k "initial"

/-- Key test of the heuristic fallback for the "number"-like key. -/
def looksLikeNum (k : String) : Bool :=
  containsSub k "nbr" || containsSub k "number" || containsSub k "num"

/-- Function `try_extract(obj)` on a dict node: run the four alias candidates in
priority order, then, only when the global `pairs` list is still empty,
attempt the heuristic substring match on lowercased keys. -/
def tryExtract (fields : List (String × JValue)) (st : ExtractState) :
    ExtractState :=
  let st1 := (aliasCandidates fields).foldl (fun s c => addCandidate s c.1 c.2) st
  if st1.pairs.length == 0 then
    let lm := lowerMap fields
    match (lm.map Prod.fst).find? looksLikeInit,
          (lm.map Prod.fst).find? looksLikeNum with
    | some ik, some nk => addCandidate st1 (objGet lm ik) (objGet lm nk)
    | some _, none => st1
    | none, _ => st1
  else st1

mutual

/-- Function `walk(node)`: dicts run `try_extract` then recurse into values in
order; lists recurse into items; scalars do nothing. -/
def walkJ : JValue → ExtractState → ExtractState
  | .obj fields, st => walkFields fields (tryExtract fields st)
  | .arr items, st => walkItems items st
  | .null, st => st
  | .bool _, st => st
  | .num _, st => st
  | .str _, st => st
termination_by structural v st => v

/-- Walk the values of a dict node in insertion order. -/
def walkFields : List (String × JValue) → ExtractState → ExtractState
  | [], st => st
  | kv :: rest, st => walkFields rest (walkJ kv.2 st)
termination_by structural l st => l

/-- Walk the items of a list node in order. -/
def walkItems : List JValue → ExtractState → ExtractState
  | [], st => st
  | v :: rest, st => walkItems rest (walkJ v st)
termination_by structural l st => l

end

/-- Method `BNSFDataFetcher._extract_equipment_pairs(cars_payload)`. -/
def extract_equipment_pairs (payload : JValue) : List EquipmentPair :=
  (walkJ payload { pairs := [], seen := [] }).pairs

/-! Instrumented variant of the extractor: identical control flow, but each
recorded pair is tagged with the rule that produced it (alias candidate or
heuristic fallback), the raw values it came from and its raw dedup key.
`eraseT_walkJT` proves the instrumentation invisible: erasing the tags
gives back `_extract_equipment_pairs` exactly. -/

/-- Which rule of `try_extract` produced a pair. -/
inductive PairOrigin where
  | alias
  | heuristic
deriving DecidableEq, Repr

/-- A recorded pair together with its provenance. -/
structure TaggedPair where
  pair : EquipmentPair
  origin : PairOrigin
  rawInit : JValue
  rawNum : JValue
  rawKey : String

/-- Instrumented extraction state. -/
structure TExtractState where
  pairs : List TaggedPair
  seen : List String

/-- Tag-erasing projection back to the plain extraction state. -/
def eraseT (st : TExtractState) : ExtractState :=
  { pairs := st.pairs.map TaggedPair.pair, seen := st.seen }

/-- Instrumented `addCandidate`. -/
def addCandidateT (o : PairOrigin) (st : TExtractState) (init num : JValue) :
    TExtractState :=
  if init.truthy && num.truthy then
    if pyStr init ++ ":" ++ pyStr num ∈ st.seen then st
    else { pairs := st.pairs ++
             [{ pair := { equipment_initial := pyStrip (pyStr init),
                          equipment_number := pyStrip (pyStr num) },
                origin := o, rawInit := init, rawNum := num,
                rawKey := pyStr init ++ ":" ++ pyStr num }],
           seen := st.seen ++ [pyStr init ++ ":" ++ pyStr num] }
  else st

/-- Instrumented `try_extract`. -/
def tryExtractT (fields : List (String × JValue)) (st : TExtractState) :
    TExtractState :=
  let st1 := (aliasCandidates fields).foldl
    (fun s c => addCandidateT .alias s c.1 c.2) st
  if st1.pairs.length == 0 then
    let lm := lowerMap fields
    match (lm.map Prod.fst).find? looksLikeInit,
          (lm.map Prod.fst).find? looksLikeNum with
    | some ik, some nk => addCandidateT .heuristic st1 (objGet lm ik) (objGet lm nk)
    | some _, none => st1
    | none, _ => st1
  else st1

mutual

/-- Instrumented `walk`. -/
def walkJT : JValue → TExtractState → TExtractState
  | .obj fields, st => walkFieldsT fields (tryExtractT fields st)
  | .arr items, st => walkItemsT items st
  | .null, st => st
  | .bool _, st => st
  | .num _, st => st
  | .str _, st => st
termination_by structural v st => v

/-- Instrumented `walkFields`. -/
def walkFieldsT : List (String × JValue) → TExtractState → TExtractState
  | [], st => st
  | kv :: rest, st => walkFieldsT rest (walkJT kv.2 st)
termination_by structural l st => l

/-- Instrumented `walkItems`. -/
def walkItemsT : List JValue → TExtractState → TExtractState
  | [], st => st
  | v :: rest, st => walkItemsT rest (walkJT v st)
termination_by structural l st => l

end

/-- Instrumented `_extract_equipment_pairs`. -/
def extract_tagged (payload : JValue) : List TaggedPair :=
  (walkJT payload { pairs := [], seen := [] }).pairs

/-- Invariant of the extraction walk: raw keys of recorded pairs are
pairwise distinct and all registered in `seen`; only the first recorded pair
can come from the heuristic fallback; every recorded pair stores truthy raw
values, stripped stringifications of them, and its raw dedup key. -/
def ExtInv (st : TExtractState) : Prop :=
  (st.pairs.map TaggedPair.rawKey).Nodup ∧
  (∀ k ∈ st.pairs.map TaggedPair.rawKey, k ∈ st.seen) ∧
  (∀ tp ∈ st.pairs.drop 1, tp.origin = PairOrigin.alias) ∧
  (∀ tp ∈ st.pairs, tp.rawInit.truthy = true ∧ tp.rawNum.truthy = true ∧
    tp.pair = { equipment_initial := pyStrip (pyStr tp.rawInit),
                equipment_number := pyStrip (pyStr tp.rawNum) } ∧
    tp.rawKey = pyStr tp.rawInit ++ ":" ++ pyStr tp.rawNum)

/-! Requester model: `BNSFAPIClient._make_request` 429 loop and
`fetch_waybill`. The network is a transcript of events, one per issued
attempt: either a response or a raised `requests` exception. -/

/-- One HTTP response as the session delivers it: status code, optional
Retry-After header value, whether the body is non-empty, the JSON-parsed
body when parseable, and the raw text. -/
structure HttpResponse where
  status_code : Nat
  retry_after : Option String := none
  hasContent : Bool := true
  jsonBody : Option JValue := none
  text : String := ""

/-- Kinds of `requests` exceptions `_make_request` catches. -/
inductive ExnKind where
  | ssl
  | conn
  | timeout
  | generic
deriving DecidableEq, Repr

/-- One event of the network transcript. -/
inductive NetEvent where
  | resp (r : HttpResponse)
  | exn (k : ExnKind) (msg : String)

/-- Decimal digit-run value, `none` when empty or non-digit. -/
def digitsVal (cs : List Char) : Option Nat :=
  if !cs.isEmpty && cs.all Char.isDigit then
    some (cs.foldl (fun n c => 10 * n + (c.toNat - 48)) 0)
  else none

/-- Python `int(s)`: strip whitespace, optional sign, decimal digits. -/
def pyInt? (s : String) : Option Int :=
  match (pyStrip s).data with
  | [] => none
  | c :: cs =>
    if c == '-' then (digitsVal cs).map (fun n => -(n : Int))
    else if c == '+' then (digitsVal cs).map (fun n => (n : Int))
    else (digitsVal (c :: cs)).map (fun n => (n : Int))

/-- The sleep `_make_request` performs after a 429 on the given 1-based
attempt: `wait_seconds = min(120, 30 * 2 ** (attempt - 1))`, then
`wait_seconds = max(int(retry_after), wait_seconds)` when the header is a
truthy string that parses as an int. -/
def waitFor (attempt : Nat) (retry_after : Option String) : Nat :=
  let computed := min 120 (30 * 2 ^ (attempt - 1))
  match retry_after with
  | none => computed
  | some s =>
    if s != "" then
      match pyInt? s with
      | some n => if n > (computed : Int) then n.toNat else computed
      | none => computed
    else computed

/-- The dict `_make_request` returns (the `headers` key, unused by any
caller under verification, is omitted). -/
structure MakeResult where
  status_code : Nat
  data : JValue
  success : Bool

/-- Body parsing of `_make_request`: `response.json() if response.content
else {}`, falling back to `{'raw_content': response.text}` when JSON
decoding fails. -/
def parseBody (r : HttpResponse) : JValue :=
  if r.hasContent then
    match r.jsonBody with
    | some j => j
    | none => .obj [("raw_content", .str r.text)]
  else .obj []

/-- Error message prefix of each exception handler of `_make_request`. -/
def exnMessage (k : ExnKind) (msg : String) : String :=
  match k with
  | .ssl => "SSL Error: " ++ msg
  | .conn => "Connection Error: " ++ msg
  | .timeout => "Timeout Error: " ++ msg
  | .generic => msg

/-- The `while True` attempt loop of `_make_request` (`max_attempts = 5`),
run against a transcript, carrying the 1-based attempt counter. Returns the
sleeps performed (in seconds, in order) and the result dict; the result is
`none` only if the transcript is exhausted first (a real session always
yields another event or raises). A caught exception yields the
status-code-0 failure dict of the matching handler. -/
def makeRequestLoop : List NetEvent → Nat → List Nat × Option MakeResult
  | [], _ => ([], none)
  | .exn k msg :: _, _ =>
    ([], some { status_code := 0, data := .obj [("error", .str (exnMessage k msg))],
                success := false })
  | .resp r :: rest, attempt =>
    if r.status_code == 429 && attempt < 5 then
      (waitFor attempt r.retry_after :: (makeRequestLoop rest (attempt + 1)).1,
       (makeRequestLoop rest (attempt + 1)).2)
    else
      ([], some { status_code := r.status_code, data := parseBody r,
                  success := r.status_code == 200 })

/-- Method `BNSFAPIClient._make_request` against a transcript. -/
def make_request (transcript : List NetEvent) : List Nat × Option MakeResult :=
  makeRequestLoop transcript 1

/-- Python `d.get(key, default)` on a dict value (a non-dict yields the
default; no caller under verification reaches that case). -/
def objGetD (v : JValue) (k : String) (d : JValue) : JValue :=
  match v with
  | .obj fields =>
    match fields.find? (fun kv => kv.1 == k) with
    | some kv => kv.2
    | none => d
  | _ => d

/-- The dict `fetch_waybill` returns: the success shape carries `data`, the
failure shape carries `error` and `status_code`. -/
structure FetchWaybillResult where
  success : Bool
  data : Option JValue := none
  error : Option JValue := none
  equipment_initial : String
  equipment_number : String
  status_code : Option Nat := none

/-- Method `BNSFAPIClient.fetch_waybill(equipment_initial, equipment_number)`
against a transcript: one `_make_request` call, then classify; a 429
failure gets the distinguishable `Rate limited (429) for ...` message,
other failures get `data.get('error', f'HTTP LcurlystatusRcurly')`. -/
def fetch_waybill (equipment_initial equipment_number : String)
    (transcript : List NetEvent) : Option FetchWaybillResult :=
  match (make_request transcript).2 with
  | none => none
  | some resp =>
    if resp.success then
      some { success := true, data := some resp.data,
             equipment_initial := equipment_initial,
             equipment_number := equipment_number }
    else
      if resp.status_code == 429 then
        some { success := false,
               error := some (.str ("Rate limited (429) for " ++
                 equipment_initial ++ equipment_number)),
               equipment_initial := equipment_initial,
               equipment_number := equipment_number,
               status_code := some resp.status_code }
      else
        some { success := false,
               error := some (objGetD resp.data "error"
                 (.str ("HTTP " ++ toString resp.status_code))),
               equipment_initial := equipment_initial,
               equipment_number := equipment_number,
               status_code := some resp.status_code }

/-- A 429 response event with no body and a given Retry-After header. -/
def resp429 (ra : Option String) : NetEvent :=
  .resp { status_code := 429, retry_after := ra, hasContent := false }

/-- A 200 response event with the given JSON body. -/
def ok200 (content : JValue) : NetEvent :=
  .resp { status_code := 200, jsonBody := some content }

/-- The wait the spec/claim prescribes after a 429 whose computed backoff is
`computed`: the computed value, unless the response carries a Retry-After
that parses to a larger value, in which case that value is used. Stated
from the claim's words, to be compared with the code's `waitFor`. -/
def claimWait (computed : Nat) (ra : Option String) : Nat :=
  match ra with
  | none => computed
  | some s =>
    match pyInt? s with
    | some v => if v > (computed : Int) then v.toNat else computed
    | none => computed

/-! Certificate conversion model: `BNSFAPIClient._convert_pfx_to_pem`. The
crypto library's `pkcs12.load_key_and_certificates` (plus the PEM
serialization of its results) and the OpenSSL subprocess are abstracted to
functions of an environment for a fixed `pfx_data`; the control flow of the
source is mirrored exactly. -/

/-- Environment of one `_convert_pfx_to_pem` call: the behaviour of
`pkcs12.load_key_and_certificates(pfx_data, pw)` per password (`none`
models Python `None`), whether `openssl` is on the PATH, and what the
OpenSSL key/cert extraction produces per `-passin` argument. -/
structure PfxEnv where
  load : Option String → Except String (String × String)
  opensslAvailable : Bool
  opensslExtract : String → Except String (String × String)

/-- Password normalization at the top of `_convert_pfx_to_pem`:
`password.strip()` when given, an empty result treated as `None`. -/
def normalizePassword (password : Option String) : Option String :=
  match password with
  | none => none
  | some p => if pyStrip p = "" then none else some (pyStrip p)

/-- The OpenSSL fallback branch of `_convert_pfx_to_pem`: raises the
chained `ValueError` when the tool is missing or either extraction fails;
the `-passin` argument comes from `(password or '').strip()`. -/
def opensslFallback (env : PfxEnv) (password : Option String) :
    Except String (String × String) :=
  if !env.opensslAvailable then
    .error "Failed to convert PFX certificate: Invalid password or PKCS12 data, and OpenSSL fallback failed."
  else
    if pyStrip (password.getD "") != "" then
      match env.opensslExtract ("pass:" ++ pyStrip (password.getD "")) with
      | .ok r => .ok r
      | .error _ => .error "Failed to convert PFX certificate: Invalid password or PKCS12 data, and OpenSSL fallback failed."
    else
      match env.opensslExtract "pass:" with
      | .ok r => .ok r
      | .error _ => .error "Failed to convert PFX certificate: Invalid password or PKCS12 data, and OpenSSL fallback failed."

/-- Method `BNSFAPIClient._convert_pfx_to_pem(pfx_data, password)`: primary decode
with the normalized password, a retry without any password on failure
(re-raising the first error when the retry also fails, which lands in the
outer handler), then the OpenSSL fallback. -/
def convert_pfx_to_pem (env : PfxEnv) (password : Option String) :
    Except String (String × String) :=
  match env.load (normalizePassword password) with
  | .ok r => .ok r
  | .error _ =>
    match env.load none with
    | .ok r => .ok r
    | .error _ => opensslFallback env password

/-! Background job model: `run_job` and its progress writes, from
`start_bnsf_fetch` in `bnsf_views.py`. -/

/-- One progress state as stored in the cache under the job's key. -/
structure ProgressState where
  success : Bool
  done : Bool
  total : Nat
  processed : Nat
  successful : Nat
  failed : Nat
  total_waybills_in_db : Nat
  message : String
deriving DecidableEq, Repr

/-- The state `start_bnsf_fetch` seeds the cache with before starting the
background thread. -/
def initialProgress : ProgressState :=
  { success := true, done := false, total := 0, processed := 0,
    successful := 0, failed := 0, total_waybills_in_db := 0,
    message := "Starting fetch..." }

/-- Helper `update_progress(total, processed, successful, failed, message)`:
overwrite exactly the provided fields of the cached state and refresh
`total_waybills_in_db` from `BNSFWaybill.objects.count()`. -/
def update_progress (st : ProgressState)
    (total processed successful failed : Option Nat)
    (message : Option String) (dbCount : Nat) : ProgressState :=
  { st with
    total := total.getD st.total,
    processed := processed.getD st.processed,
    successful := successful.getD st.successful,
    failed := failed.getD st.failed,
    message := message.getD st.message,
    total_waybills_in_db := dbCount }

/-- Result dict of `fetcher.fetch_all_cars()`. -/
structure CarsResult where
  success : Bool
  error : Option String := none
  data : JValue := .null

/-- Observable effects of the background job: each `cache.set` of the
progress key, and any `client.cleanup()` call. The constructor for cleanup
exists so its count is expressible; `run_job` (unlike
`fetch_waybills_for_all_cars`, whose `finally` block is not on this code
path) contains no cleanup call to emit. -/
inductive JobEvent where
  | set (st : ProgressState)
  | cleanupCall

/-- Inputs determining one background run: the result of the initial
`fetch_all_cars` call (`Except.error` models an exception escaping it), the
per-item outcome of `fetch_single_waybill` by item index (`ok b` for a dict
with `success=b`, `error m` for an escaping exception), and the database
count used by `update_progress`. -/
structure RunInputs where
  carsCall : Except String CarsResult
  itemCall : Nat → Except String Bool
  dbCount : Nat

/-- The cache state pushed after one loop item:
`update_progress(total=..., processed=..., successful=..., failed=...,
message='Processing waybills...')`. -/
def loopState (inp : RunInputs) (total processed successful failed : Nat)
    (st : ProgressState) : ProgressState :=
  update_progress st (some total) (some processed) (some successful)
    (some failed) (some "Processing waybills...") inp.dbCount

/-- The `for p in pairs` loop of `run_job`: per item, bump `processed` and
`successful`/`failed`, push the counters (`processed % 1 == 0` always
holds, so the push is unconditional); on an escaping exception the
top-level handler marks the current cached state done with the error
message; after the loop the state is marked done with `Fetch completed`. -/
def runLoop (inp : RunInputs) (total : Nat) :
    List EquipmentPair → Nat → Nat → Nat → Nat → ProgressState → List JobEvent
  | [], _, _, _, _, st =>
    [.set { st with done := true, message := "Fetch completed" }]
  | _ :: rest, i, processed, successful, failed, st =>
    match inp.itemCall i with
    | .error m => [.set { st with done := true, message := "Error: " ++ m }]
    | .ok ok =>
      .set (loopState inp total (processed + 1)
          (if ok then successful + 1 else successful)
          (if ok then failed else failed + 1) st) ::
        runLoop inp total rest (i + 1) (processed + 1)
          (if ok then successful + 1 else successful)
          (if ok then failed else failed + 1)
          (loopState inp total (processed + 1)
            (if ok then successful + 1 else successful)
            (if ok then failed else failed + 1) st)

/-- Function `run_job()` of `start_bnsf_fetch`, as the list of observable events
after the initial seed write: fetch cars (fatal-failure path writes the
error message then flips `done`), extract pairs, set `total`, run the
per-item loop; any modelled exception is caught by the top-level handler
which writes a terminal `done=true` state with `Error: ...`. -/
def run_job (inp : RunInputs) (st : ProgressState) : List JobEvent :=
  match inp.carsCall with
  | .error m => [.set { st with done := true, message := "Error: " ++ m }]
  | .ok cars =>
    if cars.success then
      .set (update_progress st (some (extract_equipment_pairs cars.data).length)
          (some 0) (some 0) (some 0)
          (some ("Found " ++ toString (extract_equipment_pairs cars.data).length
            ++ " cars")) inp.dbCount) ::
        runLoop inp (extract_equipment_pairs cars.data).length
          (extract_equipment_pairs cars.data) 0 0 0 0
          (update_progress st (some (extract_equipment_pairs cars.data).length)
            (some 0) (some 0) (some 0)
            (some ("Found " ++ toString (extract_equipment_pairs cars.data).length
              ++ " cars")) inp.dbCount)
    else
      [.set (update_progress st none none none none
          (some (cars.error.getD "Failed to fetch cars")) inp.dbCount),
       .set { update_progress st none none none none
          (some (cars.error.getD "Failed to fetch cars")) inp.dbCount
          with done := true }]

/-- The progress states written to the cache, in order. -/
def statesOf (events : List JobEvent) : List ProgressState :=
  events.filterMap (fun e => match e with | .set s => some s | .cleanupCall => none)

/-- Every state the cache holds for the job over its lifetime (hence every
state `get_bnsf_progress` can observe before eviction): the seed state,
then each `cache.set` of the run. -/
def jobTrace (inp : RunInputs) : List ProgressState :=
  initialProgress :: statesOf (run_job inp initialProgress)

/-- How many `client.cleanup()` calls a list of job events contains. -/
def cleanupCount (events : List JobEvent) : Nat :=
  events.countP (fun e => match e with | .cleanupCall => true | .set _ => false)

/-- Counters never decrease from state `a` to state `b`. -/
def MonoStep (a b : ProgressState) : Prop :=
  a.total ≤ b.total ∧ a.processed ≤ b.processed ∧
  a.successful ≤ b.successful ∧ a.failed ≤ b.failed

/-- The first modelled exception the per-item loop reaches, if any. -/
def firstRaiseLoop (inp : RunInputs) : List EquipmentPair → Nat → Option String
  | [], _ => none
  | _ :: rest, i =>
    match inp.itemCall i with
    | .error m => some m
    | .ok _ => firstRaiseLoop inp rest (i + 1)

/-- The first modelled exception the whole background run reaches, if any. -/
def firstRaise (inp : RunInputs) : Option String :=
  match inp.carsCall with
  | .error m => some m
  | .ok cars =>
    if cars.success then firstRaiseLoop inp (extract_equipment_pairs cars.data) 0
    else none

/-- A concrete PKCS#12 environment used to witness the passphrase claims:
decoding succeeds only without a password, OpenSSL absent. -/
def pfxEnvW : PfxEnv :=
  { load := fun pw => match pw with
      | none => .ok ("KEY-PEM", "CERT-PEM")
      | some _ => .error "mac verify failure",
    opensslAvailable := false,
    opensslExtract := fun _ => .error "unreachable" }


/-! Theorems. -/

theorem eraseT_addCandidateT (o : PairOrigin) (st : TExtractState)
    (init num : JValue) :
    eraseT (addCandidateT o st init num) = addCandidate (eraseT st) init num := by
  simp only [addCandidateT, addCandidate, eraseT]
  split
  · split
    · rfl
    · simp
  · rfl

theorem eraseT_foldCandidates (cs : List (JValue × JValue)) (st : TExtractState) :
    eraseT (cs.foldl (fun s c => addCandidateT .alias s c.1 c.2) st) =
      cs.foldl (fun s c => addCandidate s c.1 c.2) (eraseT st) := by
  induction cs generalizing st with
  | nil => rfl
  | cons c rest ih => simp [List.foldl_cons, ih, eraseT_addCandidateT]

theorem eraseT_tryExtractT (fields : List (String × JValue))
    (st : TExtractState) :
    eraseT (tryExtractT fields st) = tryExtract fields (eraseT st) := by
  simp only [tryExtractT, tryExtract, ← eraseT_foldCandidates]
  have hlen : (eraseT ((aliasCandidates fields).foldl
      (fun s c => addCandidateT .alias s c.1 c.2) st)).pairs.length =
      ((aliasCandidates fields).foldl
      (fun s c => addCandidateT .alias s c.1 c.2) st).pairs.length := by
    simp [eraseT]
  rw [hlen]
  split
  · split <;> simp [eraseT_addCandidateT]
  · rfl

mutual

theorem eraseT_walkJT (v : JValue) (st : TExtractState) :
    eraseT (walkJT v st) = walkJ v (eraseT st) := by
  cases v with
  | obj fields =>
    rw [walkJT, walkJ, eraseT_walkFieldsT, eraseT_tryExtractT]
  | arr items => rw [walkJT, walkJ, eraseT_walkItemsT]
  | null => rfl
  | bool b => rfl
  | num n => rfl
  | str s => rfl
termination_by structural v

theorem eraseT_walkFieldsT (l : List (String × JValue)) (st : TExtractState) :
    eraseT (walkFieldsT l st) = walkFields l (eraseT st) := by
  cases l with
  | nil => rfl
  | cons kv rest => rw [walkFieldsT, walkFields, eraseT_walkFieldsT, eraseT_walkJT]
termination_by structural l

theorem eraseT_walkItemsT (l : List JValue) (st : TExtractState) :
    eraseT (walkItemsT l st) = walkItems l (eraseT st) := by
  cases l with
  | nil => rfl
  | cons v rest => rw [walkItemsT, walkItems, eraseT_walkItemsT, eraseT_walkJT]
termination_by structural l

end

/-- Erasing the tags of the instrumented extractor gives exactly the pairs
returned by `_extract_equipment_pairs`. -/
theorem extract_tagged_erase (payload : JValue) :
    (extract_tagged payload).map TaggedPair.pair = extract_equipment_pairs payload := by
  have h := eraseT_walkJT payload { pairs := [], seen := [] }
  have : eraseT { pairs := [], seen := [] } = { pairs := [], seen := [] } := rfl
  rw [this] at h
  simpa [eraseT, extract_tagged, extract_equipment_pairs] using
    congrArg ExtractState.pairs h

theorem ExtInv_addCandidateT (o : PairOrigin) (st : TExtractState)
    (init num : JValue) (hor : o = PairOrigin.alias ∨ st.pairs = [])
    (h : ExtInv st) : ExtInv (addCandidateT o st init num) := by
  obtain ⟨h1, h2, h3, h4⟩ := h
  unfold addCandidateT
  split
  case isFalse => exact ⟨h1, h2, h3, h4⟩
  case isTrue htr =>
    rw [Bool.and_eq_true] at htr
    split
    case isTrue => exact ⟨h1, h2, h3, h4⟩
    case isFalse hmem =>
      refine ⟨?_, ?_, ?_, ?_⟩
      · simp only [List.map_append, List.map_cons, List.map_nil]
        rw [List.nodup_append]
        refine ⟨h1, List.nodup_singleton _, ?_⟩
        intro k hk hk1
        simp only [List.mem_singleton] at hk1
        exact hmem (hk1 ▸ h2 k hk)
      · intro k hk
        simp only [List.map_append, List.map_cons, List.map_nil,
          List.mem_append, List.mem_singleton] at hk
        rcases hk with hk | hk
        · exact List.mem_append_left _ (h2 k hk)
        · exact hk ▸ List.mem_append_right _ (List.mem_singleton_self _)
      · rcases hor with ho | ho
        · intro tp htp
          rcases hp : st.pairs with _ | ⟨p, rest⟩
          · rw [hp] at htp
            simp at htp
          · rw [hp, List.cons_append, List.drop_one, List.tail_cons,
              List.mem_append] at htp
            rcases htp with htp | htp
            · exact h3 tp (by rw [hp, List.drop_one, List.tail_cons]; exact htp)
            · simp only [List.mem_singleton] at htp
              subst htp
              exact ho
        · intro tp htp
          rw [ho] at htp
          simp at htp
      · intro tp htp
        rw [List.mem_append] at htp
        rcases htp with htp | htp
        · exact h4 tp htp
        · simp only [List.mem_singleton] at htp
          subst htp
          exact ⟨htr.1, htr.2, rfl, rfl⟩

theorem ExtInv_foldCandidates (cs : List (JValue × JValue))
    (st : TExtractState) (h : ExtInv st) :
    ExtInv (cs.foldl (fun s c => addCandidateT .alias s c.1 c.2) st) := by
  induction cs generalizing st with
  | nil => exact h
  | cons c rest ih =>
    rw [List.foldl_cons]
    exact ih _ (ExtInv_addCandidateT _ _ _ _ (Or.inl rfl) h)

theorem ExtInv_tryExtractT (fields : List (String × JValue))
    (st : TExtractState) (h : ExtInv st) : ExtInv (tryExtractT fields st) := by
  have h1 := ExtInv_foldCandidates (aliasCandidates fields) st h
  simp only [tryExtractT]
  split
  case isTrue hz =>
    have hz2 : ((aliasCandidates fields).foldl
        (fun s c => addCandidateT .alias s c.1 c.2) st).pairs = [] := by
      rw [← List.length_eq_zero]
      simpa using hz
    split
    · exact ExtInv_addCandidateT _ _ _ _ (Or.inr hz2) h1
    · exact h1
    · exact h1
  case isFalse => exact h1

mutual

theorem ExtInv_walkJT (v : JValue) (st : TExtractState) (h : ExtInv st) :
    ExtInv (walkJT v st) := by
  cases v with
  | obj fields =>
    rw [walkJT]
    exact ExtInv_walkFieldsT fields _ (ExtInv_tryExtractT fields st h)
  | arr items =>
    rw [walkJT]
    exact ExtInv_walkItemsT items st h
  | null => simpa only [walkJT] using h
  | bool b => simpa only [walkJT] using h
  | num n => simpa only [walkJT] using h
  | str s => simpa only [walkJT] using h
termination_by structural v

theorem ExtInv_walkFieldsT (l : List (String × JValue)) (st : TExtractState)
    (h : ExtInv st) : ExtInv (walkFieldsT l st) := by
  cases l with
  | nil => simpa only [walkFieldsT] using h
  | cons kv rest =>
    rw [walkFieldsT]
    exact ExtInv_walkFieldsT rest _ (ExtInv_walkJT kv.2 st h)
termination_by structural l

theorem ExtInv_walkItemsT (l : List JValue) (st : TExtractState)
    (h : ExtInv st) : ExtInv (walkItemsT l st) := by
  cases l with
  | nil => simpa only [walkItemsT] using h
  | cons v rest =>
    rw [walkItemsT]
    exact ExtInv_walkItemsT rest _ (ExtInv_walkJT v st h)
termination_by structural l

end

/-- The extraction-walk invariant instantiated at the full run: distinct raw
keys, heuristic pairs only in first position, and field provenance. -/
theorem extract_tagged_props (payload : JValue) :
    ((extract_tagged payload).map TaggedPair.rawKey).Nodup ∧
    (∀ tp ∈ (extract_tagged payload).drop 1, tp.origin = PairOrigin.alias) ∧
    (∀ tp ∈ extract_tagged payload, tp.rawInit.truthy = true ∧
      tp.rawNum.truthy = true ∧
      tp.pair = { equipment_initial := pyStrip (pyStr tp.rawInit),
                  equipment_number := pyStrip (pyStr tp.rawNum) } ∧
      tp.rawKey = pyStr tp.rawInit ++ ":" ++ pyStr tp.rawNum) := by
  have h0 : ExtInv { pairs := [], seen := [] } := by
    refine ⟨List.nodup_nil, ?_, ?_, ?_⟩ <;> simp
  have h := ExtInv_walkJT payload { pairs := [], seen := [] } h0
  exact ⟨h.1, h.2.2.1, h.2.2.2⟩

theorem waitFor_eq_claimWait (n : Nat) (ra : Option String) :
    waitFor n ra = claimWait (min 120 (30 * 2 ^ (n - 1))) ra := by
  unfold waitFor claimWait
  cases ra with
  | none => rfl
  | some s =>
    by_cases hs : s = ""
    · subst hs
      simp [pyInt?, pyStrip]
    · simp [hs]

theorem makeRequestLoop_waits_le (t : List NetEvent) (a : Nat) :
    (makeRequestLoop t a).1.length ≤ 5 - a := by
  induction t generalizing a with
  | nil => simp [makeRequestLoop]
  | cons e rest ih =>
    cases e with
    | exn k msg => simp [makeRequestLoop]
    | resp r =>
      rw [makeRequestLoop]
      split
      case isTrue h =>
        have ha : a < 5 := by
          have := (Bool.and_eq_true _ _).mp h
          exact of_decide_eq_true this.2
        have := ih (a + 1)
        simp only [List.length_cons]
        omega
      case isFalse h => simp

theorem cleanupCount_runLoop (inp : RunInputs) (total : Nat) :
    ∀ (pairs : List EquipmentPair) (i processed successful failed : Nat)
      (st : ProgressState),
      cleanupCount (runLoop inp total pairs i processed successful failed st) = 0 := by
  intro pairs
  induction pairs with
  | nil =>
    intro i p su f st
    simp [runLoop, cleanupCount]
  | cons hd rest ih =>
    intro i p su f st
    cases hcall : inp.itemCall i with
    | error m => simp [runLoop, hcall, cleanupCount]
    | ok b =>
      have := ih (i + 1) (p + 1) (if b then su + 1 else su)
        (if b then f else f + 1)
        (loopState inp total (p + 1) (if b then su + 1 else su)
          (if b then f else f + 1) st)
      simpa [runLoop, hcall, cleanupCount, List.countP_cons] using this

theorem runLoop_invariant (inp : RunInputs) (total : Nat) :
    ∀ (pairs : List EquipmentPair) (i processed successful failed : Nat)
      (st : ProgressState),
      processed = successful + failed →
      st.processed = processed → st.successful = successful →
      st.failed = failed → st.total = total →
      (∀ s ∈ statesOf (runLoop inp total pairs i processed successful failed st),
        s.processed = s.successful + s.failed) ∧
      List.Chain' MonoStep
        (st :: statesOf (runLoop inp total pairs i processed successful failed st)) := by
  intro pairs
  induction pairs with
  | nil =>
    intro i p su f st hsum hp hsu hf ht
    constructor
    · intro s hs
      simp only [runLoop, statesOf, List.filterMap_cons, List.filterMap_nil,
        List.mem_singleton] at hs
      subst hs
      show st.processed = st.successful + st.failed
      rw [hp, hsu, hf]
      exact hsum
    · simp only [runLoop, statesOf, List.filterMap_cons, List.filterMap_nil]
      refine List.chain'_cons.mpr ⟨?_, List.chain'_singleton _⟩
      exact ⟨Nat.le_refl _, Nat.le_refl _, Nat.le_refl _, Nat.le_refl _⟩
  | cons hd rest ih =>
    intro i p su f st hsum hp hsu hf ht
    cases hcall : inp.itemCall i with
    | error m =>
      constructor
      · intro s hs
        simp only [runLoop, hcall, statesOf, List.filterMap_cons,
          List.filterMap_nil, List.mem_singleton] at hs
        subst hs
        show st.processed = st.successful + st.failed
        rw [hp, hsu, hf]
        exact hsum
      · simp only [runLoop, hcall, statesOf, List.filterMap_cons, List.filterMap_nil]
        refine List.chain'_cons.mpr ⟨?_, List.chain'_singleton _⟩
        exact ⟨Nat.le_refl _, Nat.le_refl _, Nat.le_refl _, Nat.le_refl _⟩
    | ok b =>
      have h1 : (loopState inp total (p + 1) (if b then su + 1 else su)
          (if b then f else f + 1) st).processed = p + 1 := by
        simp [loopState, update_progress]
      have h2 : (loopState inp total (p + 1) (if b then su + 1 else su)
          (if b then f else f + 1) st).successful = (if b then su + 1 else su) := by
        simp [loopState, update_progress]
      have h3 : (loopState inp total (p + 1) (if b then su + 1 else su)
          (if b then f else f + 1) st).failed = (if b then f else f + 1) := by
        simp [loopState, update_progress]
      have h4 : (loopState inp total (p + 1) (if b then su + 1 else su)
          (if b then f else f + 1) st).total = total := by
        simp [loopState, update_progress]
      have hsum1 : p + 1 = (if b then su + 1 else su) + (if b then f else f + 1) := by
        cases b <;> simp <;> omega
      have IH := ih (i + 1) (p + 1) (if b then su + 1 else su)
        (if b then f else f + 1)
        (loopState inp total (p + 1) (if b then su + 1 else su)
          (if b then f else f + 1) st) hsum1 h1 h2 h3 h4
      have hstates : statesOf (runLoop inp total (hd :: rest) i p su f st) =
          loopState inp total (p + 1) (if b then su + 1 else su)
            (if b then f else f + 1) st ::
          statesOf (runLoop inp total rest (i + 1) (p + 1)
            (if b then su + 1 else su) (if b then f else f + 1)
            (loopState inp total (p + 1) (if b then su + 1 else su)
              (if b then f else f + 1) st)) := by
        simp [runLoop, hcall, statesOf]
      constructor
      · intro s hs
        rw [hstates, List.mem_cons] at hs
        rcases hs with hs | hs
        · subst hs
          rw [h1, h2, h3]
          exact hsum1
        · exact IH.1 s hs
      · rw [hstates]
        refine List.chain'_cons.mpr ⟨?_, IH.2⟩
        refine ⟨?_, ?_, ?_, ?_⟩
        · rw [ht, h4]
        · rw [hp, h1]
          exact Nat.le_succ _
        · rw [hsu, h2]
          cases b <;> simp
        · rw [hf, h3]
          cases b <;> simp

theorem runLoop_terminal (inp : RunInputs) (total : Nat) :
    ∀ (pairs : List EquipmentPair) (i processed successful failed : Nat)
      (st : ProgressState),
      ∃ s, (statesOf (runLoop inp total pairs i processed successful failed st)).getLast?
          = some s ∧ s.done = true ∧
        ∀ m, firstRaiseLoop inp pairs i = some m → s.message = "Error: " ++ m := by
  intro pairs
  induction pairs with
  | nil =>
    intro i p su f st
    refine ⟨{ st with done := true, message := "Fetch completed" }, ?_, rfl, ?_⟩
    · simp [runLoop, statesOf]
    · intro m hm
      simp [firstRaiseLoop] at hm
  | cons hd rest ih =>
    intro i p su f st
    cases hcall : inp.itemCall i with
    | error m0 =>
      refine ⟨{ st with done := true, message := "Error: " ++ m0 }, ?_, rfl, ?_⟩
      · simp [runLoop, hcall, statesOf]
      · intro m hm
        simp only [firstRaiseLoop, hcall, Option.some.injEq] at hm
        rw [hm]
    | ok b =>
      obtain ⟨s, hlast, hdone, hmsg⟩ := ih (i + 1) (p + 1)
        (if b then su + 1 else su) (if b then f else f + 1)
        (loopState inp total (p + 1) (if b then su + 1 else su)
          (if b then f else f + 1) st)
      refine ⟨s, ?_, hdone, ?_⟩
      · have hstates : statesOf (runLoop inp total (hd :: rest) i p su f st) =
            loopState inp total (p + 1) (if b then su + 1 else su)
              (if b then f else f + 1) st ::
            statesOf (runLoop inp total rest (i + 1) (p + 1)
              (if b then su + 1 else su) (if b then f else f + 1)
              (loopState inp total (p + 1) (if b then su + 1 else su)
                (if b then f else f + 1) st)) := by
          simp [runLoop, hcall, statesOf]
        rw [hstates]
        rcases htr : statesOf (runLoop inp total rest (i + 1) (p + 1)
            (if b then su + 1 else su) (if b then f else f + 1)
            (loopState inp total (p + 1) (if b then su + 1 else su)
              (if b then f else f + 1) st)) with _ | ⟨x, xs⟩
        · rw [htr] at hlast
          simp at hlast
        · rw [htr] at hlast
          rw [List.getLast?_cons_cons]
          exact hlast
      · intro m hm
        apply hmsg
        simpa [firstRaiseLoop, hcall] using hm

theorem jobTrace_invariant (inp : RunInputs) :
    (∀ s ∈ jobTrace inp, s.processed = s.successful + s.failed) ∧
    List.Chain' MonoStep (jobTrace inp) := by
  cases hc : inp.carsCall with
  | error m =>
    have htrace : jobTrace inp = [initialProgress,
        { initialProgress with done := true, message := "Error: " ++ m }] := by
      simp [jobTrace, run_job, hc, statesOf]
    rw [htrace]
    constructor
    · intro s hs
      simp only [List.mem_cons, List.mem_singleton, List.not_mem_nil,
        or_false] at hs
      rcases hs with rfl | rfl <;> rfl
    · refine List.chain'_cons.mpr ⟨?_, List.chain'_singleton _⟩
      exact ⟨Nat.le_refl _, Nat.le_refl _, Nat.le_refl _, Nat.le_refl _⟩
  | ok cars =>
    by_cases hsucc : cars.success = true
    · have h1 : (update_progress initialProgress
          (some (extract_equipment_pairs cars.data).length) (some 0) (some 0)
          (some 0) (some ("Found " ++
            toString (extract_equipment_pairs cars.data).length ++ " cars"))
          inp.dbCount).processed = 0 := by
        simp [update_progress]
      have h2 : (update_progress initialProgress
          (some (extract_equipment_pairs cars.data).length) (some 0) (some 0)
          (some 0) (some ("Found " ++
            toString (extract_equipment_pairs cars.data).length ++ " cars"))
          inp.dbCount).successful = 0 := by
        simp [update_progress]
      have h3 : (update_progress initialProgress
          (some (extract_equipment_pairs cars.data).length) (some 0) (some 0)
          (some 0) (some ("Found " ++
            toString (extract_equipment_pairs cars.data).length ++ " cars"))
          inp.dbCount).failed = 0 := by
        simp [update_progress]
      have h4 : (update_progress initialProgress
          (some (extract_equipment_pairs cars.data).length) (some 0) (some 0)
          (some 0) (some ("Found " ++
            toString (extract_equipment_pairs cars.data).length ++ " cars"))
          inp.dbCount).total = (extract_equipment_pairs cars.data).length := by
        simp [update_progress]
      have IH := runLoop_invariant inp (extract_equipment_pairs cars.data).length
        (extract_equipment_pairs cars.data) 0 0 0 0
        (update_progress initialProgress
          (some (extract_equipment_pairs cars.data).length) (some 0) (some 0)
          (some 0) (some ("Found " ++
            toString (extract_equipment_pairs cars.data).length ++ " cars"))
          inp.dbCount) rfl h1 h2 h3 h4
      have htrace : jobTrace inp = initialProgress ::
          update_progress initialProgress
            (some (extract_equipment_pairs cars.data).length) (some 0) (some 0)
            (some 0) (some ("Found " ++
              toString (extract_equipment_pairs cars.data).length ++ " cars"))
            inp.dbCount ::
          statesOf (runLoop inp (extract_equipment_pairs cars.data).length
            (extract_equipment_pairs cars.data) 0 0 0 0
            (update_progress initialProgress
              (some (extract_equipment_pairs cars.data).length) (some 0)
              (some 0) (some 0) (some ("Found " ++
                toString (extract_equipment_pairs cars.data).length ++ " cars"))
              inp.dbCount)) := by
        simp [jobTrace, run_job, hc, hsucc, statesOf]
      rw [htrace]
      constructor
      · intro s hs
        simp only [List.mem_cons] at hs
        rcases hs with rfl | rfl | hs
        · rfl
        · rw [h1, h2, h3]
        · exact IH.1 s hs
      · refine List.chain'_cons.mpr ⟨⟨Nat.zero_le _, ?_, ?_, ?_⟩, IH.2⟩
        · rw [h1]
          exact Nat.le_refl 0
        · rw [h2]
          exact Nat.le_refl 0
        · rw [h3]
          exact Nat.le_refl 0
    · have htrace : jobTrace inp = [initialProgress,
          update_progress initialProgress none none none none
            (some (cars.error.getD "Failed to fetch cars")) inp.dbCount,
          { update_progress initialProgress none none none none
              (some (cars.error.getD "Failed to fetch cars")) inp.dbCount
            with done := true }] := by
        simp [jobTrace, run_job, hc, hsucc, statesOf]
      rw [htrace]
      constructor
      · intro s hs
        simp only [List.mem_cons, List.mem_singleton, List.not_mem_nil,
          or_false] at hs
        rcases hs with rfl | rfl | rfl <;> rfl
      · refine List.chain'_cons.mpr ⟨?_, List.chain'_cons.mpr
          ⟨?_, List.chain'_singleton _⟩⟩
        · exact ⟨Nat.le_refl _, Nat.le_refl _, Nat.le_refl _, Nat.le_refl _⟩
        · exact ⟨Nat.le_refl _, Nat.le_refl _, Nat.le_refl _, Nat.le_refl _⟩

/-- C1: contrary to the claim, a job started through `start_bnsf_fetch`
never invokes `cleanup()`: on every exit path of `run_job` — normal
completion, fatal early abort after the list-all call fails, and caught
exception — the run performs zero cleanup calls rather than exactly one
(the `finally: self.client.cleanup()` block exists only in
`fetch_waybills_for_all_cars`, which `run_job` does not use), so the
job's temporary certificate files are never deleted by job end. -/
theorem run_job_never_invokes_cleanup (inp : RunInputs) (st : ProgressState) :
    cleanupCount (run_job inp st) = 0 := by
  cases hc : inp.carsCall with
  | error m => simp [run_job, hc, cleanupCount]
  | ok cars =>
    by_cases hsucc : cars.success = true
    · have := cleanupCount_runLoop inp (extract_equipment_pairs cars.data).length
        (extract_equipment_pairs cars.data) 0 0 0 0
        (update_progress st (some (extract_equipment_pairs cars.data).length)
          (some 0) (some 0) (some 0)
          (some ("Found " ++ toString (extract_equipment_pairs cars.data).length
            ++ " cars")) inp.dbCount)
      simpa [run_job, hc, hsucc, cleanupCount, List.countP_cons] using this
    · simp [run_job, hc, hsucc, cleanupCount]

/-- C2: at every state observable through the progress cache during a job
(the seed state and each state `run_job` writes), `processed` equals
`successful + failed`; and between consecutive observed states whose
predecessor is not yet done, none of `total`, `processed`, `successful`,
`failed` decreases. -/
theorem progress_counters_invariant (inp : RunInputs) :
    (∀ s ∈ jobTrace inp, s.processed = s.successful + s.failed) ∧
    List.Chain' (fun a b => a.done = false → MonoStep a b) (jobTrace inp) := by
  obtain ⟨hinv, hchain⟩ := jobTrace_invariant inp
  exact ⟨hinv, List.Chain'.imp (fun a b h => fun (_ : a.done = false) => h) hchain⟩

/-- C3: the background run is a total function of its inputs (no modelled
exception escapes it), its last cache write always has `done = true`, and
when an exception is raised anywhere in it (the list-all call or the
per-item loop), the final state's message is `Error:` followed by the
exception's message — the job is never left permanently not-done. -/
theorem run_job_catches_all (inp : RunInputs) :
    ∃ s, (jobTrace inp).getLast? = some s ∧ s.done = true ∧
      ∀ m, firstRaise inp = some m → s.message = "Error: " ++ m := by
  cases hc : inp.carsCall with
  | error m0 =>
    refine ⟨{ initialProgress with done := true, message := "Error: " ++ m0 },
      ?_, rfl, ?_⟩
    · simp [jobTrace, run_job, hc, statesOf]
    · intro m hm
      simp only [firstRaise, hc, Option.some.injEq] at hm
      rw [hm]
  | ok cars =>
    by_cases hsucc : cars.success = true
    · obtain ⟨s, hlast, hdone, hmsg⟩ := runLoop_terminal inp
        (extract_equipment_pairs cars.data).length
        (extract_equipment_pairs cars.data) 0 0 0 0
        (update_progress initialProgress
          (some (extract_equipment_pairs cars.data).length) (some 0) (some 0)
          (some 0) (some ("Found " ++
            toString (extract_equipment_pairs cars.data).length ++ " cars"))
          inp.dbCount)
      refine ⟨s, ?_, hdone, ?_⟩
      · have htrace : jobTrace inp = initialProgress ::
            update_progress initialProgress
              (some (extract_equipment_pairs cars.data).length) (some 0)
              (some 0) (some 0) (some ("Found " ++
                toString (extract_equipment_pairs cars.data).length ++ " cars"))
              inp.dbCount ::
            statesOf (runLoop inp (extract_equipment_pairs cars.data).length
              (extract_equipment_pairs cars.data) 0 0 0 0
              (update_progress initialProgress
                (some (extract_equipment_pairs cars.data).length) (some 0)
                (some 0) (some 0) (some ("Found " ++
                  toString (extract_equipment_pairs cars.data).length ++ " cars"))
                inp.dbCount)) := by
          simp [jobTrace, run_job, hc, hsucc, statesOf]
        rw [htrace]
        rcases htr : statesOf (runLoop inp (extract_equipment_pairs cars.data).length
            (extract_equipment_pairs cars.data) 0 0 0 0
            (update_progress initialProgress
              (some (extract_equipment_pairs cars.data).length) (some 0)
              (some 0) (some 0) (some ("Found " ++
                toString (extract_equipment_pairs cars.data).length ++ " cars"))
              inp.dbCount)) with _ | ⟨x, xs⟩
        · rw [htr] at hlast
          simp at hlast
        · rw [htr] at hlast
          rw [List.getLast?_cons_cons, List.getLast?_cons_cons]
          exact hlast
      · intro m hm
        apply hmsg
        simpa [firstRaise, hc, hsucc] using hm
    · refine ⟨{ update_progress initialProgress none none none none
          (some (cars.error.getD "Failed to fetch cars")) inp.dbCount
          with done := true }, ?_, rfl, ?_⟩
      · simp [jobTrace, run_job, hc, hsucc, statesOf]
      · intro m hm
        simp [firstRaise, hc, hsucc] at hm

/-- C4: the wait after a 429 on attempt `n` is `min(120, 30*2^(n-1))`
unless a larger Retry-After value is present (first conjunct, via the
claim-side formula `claimWait`); a transcript of four 429s (any Retry-After
headers) followed by a 200 succeeds after exactly four retries with those
waits (second conjunct); with no Retry-After the waits are exactly
30, 60, 120, 120 seconds (third conjunct). -/
theorem make_request_backoff_schedule (ra1 ra2 ra3 ra4 : Option String)
    (content : JValue) :
    (∀ (n : Nat) (ra : Option String),
      waitFor n ra = claimWait (min 120 (30 * 2 ^ (n - 1))) ra) ∧
    make_request [resp429 ra1, resp429 ra2, resp429 ra3, resp429 ra4,
        ok200 content] =
      ([claimWait 30 ra1, claimWait 60 ra2, claimWait 120 ra3, claimWait 120 ra4],
       some { status_code := 200, data := content, success := true }) ∧
    make_request [resp429 none, resp429 none, resp429 none, resp429 none,
        ok200 content] =
      ([30, 60, 120, 120],
       some { status_code := 200, data := content, success := true }) := by
  refine ⟨waitFor_eq_claimWait, ?_, ?_⟩
  · have e1 := waitFor_eq_claimWait 1 ra1
    have e2 := waitFor_eq_claimWait 2 ra2
    have e3 := waitFor_eq_claimWait 3 ra3
    have e4 := waitFor_eq_claimWait 4 ra4
    norm_num at e1 e2 e3 e4
    simp [make_request, makeRequestLoop, resp429, ok200, parseBody,
      e1, e2, e3, e4]
  · simp [make_request, makeRequestLoop, resp429, ok200, parseBody, waitFor,
      claimWait]

/-- C5: at most 5 attempts per call (the sleep list never exceeds 4, third
conjunct); five consecutive 429s return after exactly the fifth attempt
with the failure dict carrying status 429 regardless of any further
transcript events — a sixth attempt is never issued (first and second
conjuncts); `fetch_waybill` turns that result into the distinguishable
`Rate limited (429) for ...` error with `status_code` 429, which the
caller's loop-level pacing tests for (fourth conjunct). -/
theorem make_request_rate_limit_exhaustion
    (ra1 ra2 ra3 ra4 ra5 : Option String) (rest : List NetEvent)
    (einit enum : String) :
    (make_request (resp429 ra1 :: resp429 ra2 :: resp429 ra3 :: resp429 ra4 ::
        resp429 ra5 :: rest)).2 =
      some { status_code := 429, data := .obj [], success := false } ∧
    (make_request (resp429 ra1 :: resp429 ra2 :: resp429 ra3 :: resp429 ra4 ::
        resp429 ra5 :: rest)).1.length = 4 ∧
    (∀ transcript : List NetEvent,
      (make_request transcript).1.length + 1 ≤ 5) ∧
    fetch_waybill einit enum (resp429 ra1 :: resp429 ra2 :: resp429 ra3 ::
        resp429 ra4 :: resp429 ra5 :: rest) =
      some { success := false,
             error := some (.str ("Rate limited (429) for " ++ einit ++ enum)),
             equipment_initial := einit, equipment_number := enum,
             status_code := some 429 } := by
  refine ⟨?_, ?_, ?_, ?_⟩
  · simp [make_request, makeRequestLoop, resp429, parseBody]
  · simp [make_request, makeRequestLoop, resp429]
  · intro transcript
    have := makeRequestLoop_waits_le transcript 1
    simp only [make_request]
    omega
  · simp [fetch_waybill, make_request, makeRequestLoop, resp429, parseBody]

/-- C6 (counterexample): an object node carrying two distinct alias
pairings simultaneously (`eqInit`/`eqNbr` and `initial`/`number`) emits
both pairs — two pairs from one node's alias list — so the first matching
alias pair does not win and suppress the rest. -/
theorem extract_two_alias_pairs_from_one_node :
    extract_equipment_pairs (.obj [("eqInit", .str "A"), ("eqNbr", .str "1"),
        ("initial", .str "B"), ("number", .str "2")]) =
      [{ equipment_initial := "A", equipment_number := "1" },
       { equipment_initial := "B", equipment_number := "2" }] ∧
    1 < (extract_equipment_pairs (.obj [("eqInit", .str "A"),
        ("eqNbr", .str "1"), ("initial", .str "B"),
        ("number", .str "2")])).length := by
  constructor
  · decide
  · decide

theorem addCandidateT_append_only (o : PairOrigin) (st : TExtractState)
    (init num : JValue) :
    ∃ t u, (addCandidateT o st init num).pairs = st.pairs ++ t ∧
      (addCandidateT o st init num).seen = st.seen ++ u := by
  unfold addCandidateT
  split
  case isTrue =>
    split
    case isTrue => exact ⟨[], [], by simp, by simp⟩
    case isFalse => exact ⟨_, _, rfl, rfl⟩
  case isFalse => exact ⟨[], [], by simp, by simp⟩

theorem foldT_append_only (cs : List (JValue × JValue)) (st : TExtractState) :
    ∃ t u,
      (cs.foldl (fun s c => addCandidateT .alias s c.1 c.2) st).pairs
        = st.pairs ++ t ∧
      (cs.foldl (fun s c => addCandidateT .alias s c.1 c.2) st).seen
        = st.seen ++ u := by
  induction cs generalizing st with
  | nil => exact ⟨[], [], by simp, by simp⟩
  | cons c rest ih =>
    rw [List.foldl_cons]
    obtain ⟨t1, u1, h1, h2⟩ := addCandidateT_append_only .alias st c.1 c.2
    obtain ⟨t2, u2, h3, h4⟩ := ih (addCandidateT .alias st c.1 c.2)
    exact ⟨t1 ++ t2, u1 ++ u2, by rw [h3, h1, List.append_assoc],
      by rw [h4, h2, List.append_assoc]⟩

theorem tryExtractT_append_only (fields : List (String × JValue))
    (st : TExtractState) :
    ∃ t u,
      (tryExtractT fields st).pairs =
        ((aliasCandidates fields).foldl
          (fun s c => addCandidateT .alias s c.1 c.2) st).pairs ++ t ∧
      (tryExtractT fields st).seen =
        ((aliasCandidates fields).foldl
          (fun s c => addCandidateT .alias s c.1 c.2) st).seen ++ u := by
  simp only [tryExtractT]
  split
  case isTrue =>
    split
    · obtain ⟨t, u, h1, h2⟩ := addCandidateT_append_only .heuristic _ _ _
      exact ⟨t, u, h1, h2⟩
    · exact ⟨[], [], by simp, by simp⟩
    · exact ⟨[], [], by simp, by simp⟩
  case isFalse => exact ⟨[], [], by simp, by simp⟩

theorem addCandidateT_key_seen (o : PairOrigin) (st : TExtractState)
    (init num : JValue) (hi : init.truthy = true) (hn : num.truthy = true) :
    pyStr init ++ ":" ++ pyStr num ∈ (addCandidateT o st init num).seen := by
  unfold addCandidateT
  rw [hi, hn]
  simp only [Bool.and_self, if_true]
  split
  case isTrue h => exact h
  case isFalse h => exact List.mem_append_right _ (List.mem_singleton_self _)

theorem addCandidateT_seen_new (o : PairOrigin) (st : TExtractState)
    (init num : JValue) (k : String)
    (hk : k ∈ (addCandidateT o st init num).seen) (hnot : k ∉ st.seen) :
    ∃ tp, (addCandidateT o st init num).pairs = st.pairs ++ [tp] ∧
      tp.rawKey = k ∧ tp.origin = o := by
  unfold addCandidateT at hk ⊢
  by_cases h1 : (init.truthy && num.truthy) = true
  · rw [if_pos h1] at hk ⊢
    by_cases h2 : pyStr init ++ ":" ++ pyStr num ∈ st.seen
    · rw [if_pos h2] at hk
      exact absurd hk hnot
    · rw [if_neg h2] at hk ⊢
      have hkey : k = pyStr init ++ ":" ++ pyStr num := by
        rcases List.mem_append.mp hk with h | h
        · exact absurd h hnot
        · simpa using h
      exact ⟨_, rfl, hkey.symm, rfl⟩
  · rw [if_neg h1] at hk
    exact absurd hk hnot

theorem foldT_key_seen (cs : List (JValue × JValue)) (init num : JValue)
    (hi : init.truthy = true) (hn : num.truthy = true) :
    ∀ st : TExtractState, (init, num) ∈ cs →
      pyStr init ++ ":" ++ pyStr num ∈
        (cs.foldl (fun s c => addCandidateT .alias s c.1 c.2) st).seen := by
  induction cs with
  | nil =>
    intro st h
    simp at h
  | cons c rest ih =>
    intro st hmem
    rw [List.foldl_cons]
    rcases List.mem_cons.mp hmem with hq | hq
    · subst hq
      obtain ⟨t, u, _, hs⟩ := foldT_append_only rest
        (addCandidateT .alias st init num)
      rw [hs]
      exact List.mem_append_left _ (addCandidateT_key_seen .alias st init num hi hn)
    · exact ih (addCandidateT .alias st c.1 c.2) hq

theorem mem_drop_of_le {α : Type} {x : α} {l : List α} {a b : Nat}
    (hba : b ≤ a) (hx : x ∈ l.drop a) : x ∈ l.drop b := by
  have h : (l.drop b).drop (a - b) = l.drop a := by
    rw [List.drop_drop]
    congr 1
    omega
  rw [← h] at hx
  exact List.drop_subset _ _ hx

theorem foldT_fresh_emits (cs : List (JValue × JValue)) (init num : JValue)
    (hi : init.truthy = true) (hn : num.truthy = true) :
    ∀ st : TExtractState, (init, num) ∈ cs →
      pyStr init ++ ":" ++ pyStr num ∉ st.seen →
      ∃ tp ∈ ((cs.foldl (fun s c => addCandidateT .alias s c.1 c.2) st).pairs.drop
          st.pairs.length),
        tp.origin = PairOrigin.alias ∧
        tp.rawKey = pyStr init ++ ":" ++ pyStr num := by
  induction cs with
  | nil =>
    intro st h _
    simp at h
  | cons c rest ih =>
    intro st hmem hfresh
    rw [List.foldl_cons]
    rcases List.mem_cons.mp hmem with hq | hq
    · subst hq
      obtain ⟨tp0, hp0, hk0, ho0⟩ := addCandidateT_seen_new .alias st init num
        (pyStr init ++ ":" ++ pyStr num)
        (addCandidateT_key_seen .alias st init num hi hn) hfresh
      obtain ⟨t, u, hp, _⟩ := foldT_append_only rest
        (addCandidateT .alias st init num)
      refine ⟨tp0, ?_, ho0, hk0⟩
      rw [hp, hp0, List.append_assoc, List.drop_left]
      exact List.mem_cons_self _ _
    · by_cases hkey : pyStr init ++ ":" ++ pyStr num ∈
          (addCandidateT .alias st c.1 c.2).seen
      · obtain ⟨tp0, hp0, hk0, ho0⟩ := addCandidateT_seen_new .alias st c.1 c.2
          (pyStr init ++ ":" ++ pyStr num) hkey hfresh
        obtain ⟨t, u, hp, _⟩ := foldT_append_only rest
          (addCandidateT .alias st c.1 c.2)
        refine ⟨tp0, ?_, ho0, hk0⟩
        rw [hp, hp0, List.append_assoc, List.drop_left]
        exact List.mem_cons_self _ _
      · obtain ⟨tp, htp, ho, hk⟩ := ih (addCandidateT .alias st c.1 c.2) hq hkey
        refine ⟨tp, ?_, ho, hk⟩
        obtain ⟨t1, u1, h1, _⟩ := addCandidateT_append_only .alias st c.1 c.2
        have hle : st.pairs.length ≤ (addCandidateT .alias st c.1 c.2).pairs.length := by
          rw [h1]
          simp
        exact mem_drop_of_le hle htp

/-- C6 (amended): the alias candidates are evaluated in priority order at
each object node, but the first alias pair with both values present does
not win exclusively. Universally — at every object node (any field list)
and in every walk state — every alias candidate with both values truthy
gets its raw `f"init:num"` key registered in the `seen` set at that node
(first conjunct), and whenever that key was not already seen, an
alias-derived pair carrying exactly that raw key is emitted at that node,
inside the segment the node appends to the global pairs list (second
conjunct); the instrumented node function erases to the source's
`try_extract` (third conjunct); concretely, a node carrying the
`eqInit`/`eqNbr` and `initial`/`number` pairings emits both pairs, in
priority order (fourth conjunct). -/
theorem extract_alias_pairs_no_break :
    (∀ (fields : List (String × JValue)) (st : TExtractState)
        (init num : JValue),
      (init, num) ∈ aliasCandidates fields → init.truthy = true →
      num.truthy = true →
      pyStr init ++ ":" ++ pyStr num ∈ (tryExtractT fields st).seen) ∧
    (∀ (fields : List (String × JValue)) (st : TExtractState)
        (init num : JValue),
      (init, num) ∈ aliasCandidates fields → init.truthy = true →
      num.truthy = true → pyStr init ++ ":" ++ pyStr num ∉ st.seen →
      ∃ tp ∈ (tryExtractT fields st).pairs.drop st.pairs.length,
        tp.origin = PairOrigin.alias ∧
        tp.rawKey = pyStr init ++ ":" ++ pyStr num) ∧
    (∀ (fields : List (String × JValue)) (st : TExtractState),
      eraseT (tryExtractT fields st) = tryExtract fields (eraseT st)) ∧
    extract_equipment_pairs (.obj [("eqInit", .str "A"), ("eqNbr", .str "1"),
        ("initial", .str "B"), ("number", .str "2")]) =
      [{ equipment_initial := "A", equipment_number := "1" },
       { equipment_initial := "B", equipment_number := "2" }] := by
  refine ⟨?_, ?_, eraseT_tryExtractT, by decide⟩
  · intro fields st init num hmem hi hn
    obtain ⟨t, u, _, hs⟩ := tryExtractT_append_only fields st
    rw [hs]
    exact List.mem_append_left _
      (foldT_key_seen (aliasCandidates fields) init num hi hn st hmem)
  · intro fields st init num hmem hi hn hfresh
    obtain ⟨tp, htp, ho, hk⟩ := foldT_fresh_emits (aliasCandidates fields)
      init num hi hn st hmem hfresh
    obtain ⟨t, u, hp, _⟩ := tryExtractT_append_only fields st
    refine ⟨tp, ?_, ho, hk⟩
    rw [hp]
    have hle : st.pairs.length ≤
        ((aliasCandidates fields).foldl
          (fun s c => addCandidateT .alias s c.1 c.2) st).pairs.length := by
      obtain ⟨t1, u1, h1, _⟩ := foldT_append_only (aliasCandidates fields) st
      rw [h1]
      simp
    rw [List.drop_append_of_le_length hle]
    exact List.mem_append_left _ htp

/-- C7 (amended): the heuristic fires at a node only while the global
`pairs` list is still empty, not only when no alias matches in the whole
walk: hence at most one heuristic-derived pair can appear in the result and
only as its first element (every later pair is alias-derived), but an
alias match at a node visited after the heuristic fired does not remove the
already-collected heuristic pair. -/
theorem extract_heuristic_only_first (payload : JValue) :
    (extract_tagged payload).map TaggedPair.pair =
      extract_equipment_pairs payload ∧
    ∀ tp ∈ (extract_tagged payload).drop 1, tp.origin = PairOrigin.alias :=
  ⟨extract_tagged_erase payload, (extract_tagged_props payload).2.1⟩

/-- C7 (counterexample): in a document whose first object matches only the
heuristic (`myInit`/`myNum`) and whose second object matches the `eqInit`
alias, the heuristic-derived pair stays in the result even though an alias
pair matches at a node of the document, contradicting the claim that any
alias match anywhere suppresses all heuristic-derived pairs. -/
theorem extract_heuristic_pair_survives_alias_match :
    extract_equipment_pairs (.arr [.obj [("myInit", .str "X"),
        ("myNum", .str "1")], .obj [("eqInit", .str "A"), ("eqNbr", .str "2")]]) =
      [{ equipment_initial := "X", equipment_number := "1" },
       { equipment_initial := "A", equipment_number := "2" }] ∧
    (extract_tagged (.arr [.obj [("myInit", .str "X"), ("myNum", .str "1")],
        .obj [("eqInit", .str "A"), ("eqNbr", .str "2")]])).map TaggedPair.origin =
      [PairOrigin.heuristic, PairOrigin.alias] := by
  constructor
  · decide
  · decide

/-- C8: extraction deduplicates by the raw `f"init:num"` key — the raw keys
of the returned pairs are pairwise distinct for every payload (via the
instrumented extractor, whose tag erasure is the returned list) — and the
quoted example with a duplicated `eqInit`/`eqNbr` object returns exactly
one pair. -/
theorem extract_dedup_raw_keys :
    (∀ payload : JValue,
      (extract_tagged payload).map TaggedPair.pair =
        extract_equipment_pairs payload ∧
      ((extract_tagged payload).map TaggedPair.rawKey).Nodup) ∧
    extract_equipment_pairs (.arr [.obj [("eqInit", .str "BNSF"),
        ("eqNbr", .str "001")], .obj [("eqInit", .str "BNSF"),
        ("eqNbr", .str "001")]]) =
      [{ equipment_initial := "BNSF", equipment_number := "001" }] := by
  constructor
  · intro payload
    exact ⟨extract_tagged_erase payload, (extract_tagged_props payload).1⟩
  · decide

/-- C9: a whitespace-only (or empty) passphrase behaves identically to no
passphrase — the passphrase is trimmed and an empty result treated as
`None` (first conjunct) — and on any first decode failure a retry without
any passphrase is attempted before the operation can fail (second
conjunct: if the retry succeeds, its result is returned). -/
theorem convert_pfx_blank_password (env : PfxEnv) (p : String)
    (hp : pyStrip p = "") :
    convert_pfx_to_pem env (some p) = convert_pfx_to_pem env none ∧
    (∀ (q : Option String) (r : String × String) (e : String),
      env.load (normalizePassword q) = .error e → env.load none = .ok r →
      convert_pfx_to_pem env q = .ok r) := by
  constructor
  · have h1 : normalizePassword (some p) = none := by
      simp [normalizePassword, hp]
    have h3 : opensslFallback env (some p) = opensslFallback env none := by
      unfold opensslFallback
      rw [show pyStrip ((some p).getD "") = "" from by simpa using hp,
        show pyStrip ((none : Option String).getD "") = "" from rfl]
    simp [convert_pfx_to_pem, normalizePassword, hp, h3]
  · intro q r e h1 h2
    simp [convert_pfx_to_pem, h1, h2]

/-- Witness for C9: in an environment where decoding succeeds only without
a password, the whitespace-only passphrase `"  "` decodes exactly like no
passphrase. -/
theorem convert_pfx_blank_password_witness :
    convert_pfx_to_pem pfxEnvW (some "  ") = convert_pfx_to_pem pfxEnvW none :=
  (convert_pfx_blank_password pfxEnvW "  " (by decide)).1

/-- C10 (counterexample): a whitespace-only `eqInit` value is truthy in
Python, so the candidate is not skipped, and after `str(...).strip()` the
returned pair has an empty `equipment_initial` — contradicting the claim
that every returned pair has non-empty fields. -/
theorem extract_whitespace_value_gives_empty_field :
    extract_equipment_pairs (.arr [.obj [("eqInit", .str " "),
        ("eqNbr", .str "001")]]) =
      [{ equipment_initial := "", equipment_number := "001" }] := by
  decide

/-- C10 (amended): every pair returned by extraction comes from a candidate
whose raw values are both truthy (missing, empty, zero or otherwise falsy
values are skipped), and both fields are `str(...)` of the raw values with
surrounding whitespace stripped — but a truthy whitespace-only raw value
strips to an empty field, so the fields need not be non-empty. -/
theorem extract_fields_from_truthy_raws (payload : JValue) :
    (extract_tagged payload).map TaggedPair.pair =
      extract_equipment_pairs payload ∧
    ∀ tp ∈ extract_tagged payload, tp.rawInit.truthy = true ∧
      tp.rawNum.truthy = true ∧
      tp.pair.equipment_initial = pyStrip (pyStr tp.rawInit) ∧
      tp.pair.equipment_number = pyStrip (pyStr tp.rawNum) := by
  refine ⟨extract_tagged_erase payload, ?_⟩
  intro tp htp
  obtain ⟨ht1, ht2, hpair, _⟩ := (extract_tagged_props payload).2.2 tp htp
  exact ⟨ht1, ht2, by rw [hpair], by rw [hpair]⟩

end BNSF
